import Mathlib

/-!
# Verification of gae_mini_profiler against its specification

Shallow Lean embedding of the parts of `gae_mini_profiler` (profiler.py,
sampling_profiler.py, linebyline_profiler.py) that the specification claims
speak about, together with proofs or refutations of those claims.

Conventions of the embedding:
* Python byte strings become `List Nat` (one entry per byte).
* Python floats that carry timestamps/durations become `ℚ` (the claims are
  about exact arithmetic identities, not rounding).
* The memcache backing store becomes a function from keys to optional values.
* Python code that can raise becomes an `Option`-returning function
  (`none` = exception), and the unbounded `while True` fetch loop is given
  explicit fuel (`none` = the loop has not terminated within the fuel).
-/

/-! ## profiler.py: Mode -/

namespace Mode

/-- Mode.SIMPLE (profiler.py line 82). -/
def SIMPLE : String := "simple"

/-- Mode.CPU_INSTRUMENTED (profiler.py line 83). -/
def CPU_INSTRUMENTED : String := "instrumented"

/-- Mode.CPU_SAMPLING (profiler.py line 84). -/
def CPU_SAMPLING : String := "sampling"

/-- Mode.CPU_MEMORY_SAMPLING (profiler.py line 85). -/
def CPU_MEMORY_SAMPLING : String := "memory_sampling"

/-- Mode.CPU_LINEBYLINE (profiler.py line 86). -/
def CPU_LINEBYLINE : String := "linebyline"

/-- Mode.RPC_ONLY (profiler.py line 87). -/
def RPC_ONLY : String := "rpc"

/-- Mode.RPC_AND_CPU_INSTRUMENTED (profiler.py line 88). -/
def RPC_AND_CPU_INSTRUMENTED : String := "rpc_instrumented"

/-- Mode.RPC_AND_CPU_SAMPLING (profiler.py line 89). -/
def RPC_AND_CPU_SAMPLING : String := "rpc_sampling"

/-- Mode.RPC_AND_CPU_MEMORY_SAMPLING (profiler.py lines 90-91). -/
def RPC_AND_CPU_MEMORY_SAMPLING : String := "rpc_memory_sampling"

/-- Mode.RPC_AND_CPU_LINEBYLINE (profiler.py line 92), commented in the source
as "RPCs and line-by-line profiling". -/
def RPC_AND_CPU_LINEBYLINE : String := "rpc_linebyline"

/-- The list of the ten enumerated mode strings against which
`Mode.get_mode` validates (profiler.py lines 103-113). -/
def enumeratedModes : List String :=
  [SIMPLE,
   CPU_INSTRUMENTED,
   CPU_SAMPLING,
   CPU_MEMORY_SAMPLING,
   CPU_LINEBYLINE,
   RPC_ONLY,
   RPC_AND_CPU_INSTRUMENTED,
   RPC_AND_CPU_SAMPLING,
   RPC_AND_CPU_MEMORY_SAMPLING,
   RPC_AND_CPU_LINEBYLINE]

/-- Mode.get_mode (profiler.py lines 94-116).

`environ` models the WSGI environ dictionary as an optional-valued map from keys to
string values; the code first reads the header key `"HTTP_G_M_P_MODE"` from
it.  `cookie` is the result of `cookies.get_cookie_value("g-m-p-mode")`
(`none` = cookie absent).  The `cookies` module is not among the provided
source files; its lookup result is therefore passed in as a parameter,
modelled from the spec sentence "read a request header first; if absent, read
a cookie".  A value (from either source) that is not one of the ten
enumerated mode strings is replaced by `RPC_ONLY`; a missing value
(Python `None`) is likewise not in the list and is replaced by `RPC_ONLY`. -/
def get_mode (environ : String → Option String) (cookie : Option String) :
    String :=
  let mode : Option String :=
    match environ "HTTP_G_M_P_MODE" with
    | some v => some v
    | none => cookie
  match mode with
  | some v => if v ∈ enumeratedModes then v else RPC_ONLY
  | none => RPC_ONLY

/-- Mode.is_rpc_enabled (profiler.py lines 118-124).  Note that the list in
the source names only four modes; `RPC_AND_CPU_LINEBYLINE` is absent. -/
def is_rpc_enabled (mode : String) : Bool :=
  [RPC_ONLY,
   RPC_AND_CPU_INSTRUMENTED,
   RPC_AND_CPU_SAMPLING,
   RPC_AND_CPU_MEMORY_SAMPLING].contains mode

/-- Mode.is_sampling_enabled (profiler.py lines 126-132). -/
def is_sampling_enabled (mode : String) : Bool :=
  [CPU_SAMPLING,
   CPU_MEMORY_SAMPLING,
   RPC_AND_CPU_SAMPLING,
   RPC_AND_CPU_MEMORY_SAMPLING].contains mode

/-- Mode.is_memory_sampling_enabled (profiler.py lines 134-138). -/
def is_memory_sampling_enabled (mode : String) : Bool :=
  [CPU_MEMORY_SAMPLING, RPC_AND_CPU_MEMORY_SAMPLING].contains mode

/-- Mode.is_instrumented_enabled (profiler.py lines 140-144). -/
def is_instrumented_enabled (mode : String) : Bool :=
  [CPU_INSTRUMENTED, RPC_AND_CPU_INSTRUMENTED].contains mode

/-- Mode.is_linebyline_enabled (profiler.py lines 146-150). -/
def is_linebyline_enabled (mode : String) : Bool :=
  [CPU_LINEBYLINE, RPC_AND_CPU_LINEBYLINE].contains mode

end Mode

/-! ## sampling_profiler.py: memory sampling cadence -/

namespace SamplingProfiler

/-- InspectingThread.SAMPLES_PER_SECOND (sampling_profiler.py line 58). -/
def SAMPLES_PER_SECOND : Nat := 250

/-- The computation of `self.memory_sample_every` in Profile.__init__
(sampling_profiler.py lines 150-158):

    if memory_sample_rate:
        self.memory_sample_every = max(1, int(round(
            InspectingThread.SAMPLES_PER_SECOND / memory_sample_rate)))
    else:
        self.memory_sample_every = 0

The profiler is configured with an integer rate (profiler.py line 508 passes
`memory_sample_rate=25`), and the module does not import true division, so
`SAMPLES_PER_SECOND / memory_sample_rate` is Python 2 integer floor
division; `int(round(.))` of an integer is that integer. -/
def memory_sample_every (memory_sample_rate : Nat) : Nat :=
  if memory_sample_rate = 0 then 0
  else max 1 (SAMPLES_PER_SECOND / memory_sample_rate)

/-- The memory-recording decision and effect of Profile.take_sample
(sampling_profiler.py lines 367-382) on `self.memory_samples`:

    if self.memory_sample_every:
        if force_memory or sample_number % self.memory_sample_every == 0:
            self.memory_samples[timestamp_ms] = get_memory()

`memory_samples` (an OrderedDict keyed by timestamp) is modelled as a list of
(timestamp, memory) pairs in insertion order; `mem_now` stands for the value
returned by `get_memory()`. -/
def take_sample_memory (every : Nat) (memory_samples : List (ℚ × ℚ))
    (timestamp_ms mem_now : ℚ) (sample_number : Nat) (force_memory : Bool) :
    List (ℚ × ℚ) :=
  if every ≠ 0 ∧ (force_memory = true ∨ sample_number % every = 0) then
    memory_samples ++ [(timestamp_ms, mem_now)]
  else
    memory_samples

end SamplingProfiler

/-! ## sampling_profiler.py: the call tree of _call_tree -/

namespace SamplingProfiler

/-- One entry of a `ProfileSample.stack_trace`
(sampling_profiler.py lines 124-131):

    stack_trace.append((code, frame.f_lineno))

A frame is the pair of the code object and the line the frame is currently
executing.  A code object is identified here by its `co_filename` and
`co_name` (the fields `_munge_call_tree` reads from it); two frames running
the same function of the same file share the `code` component and differ
only in `lineno`. -/
structure FrameKey where
  code : String × String
  lineno : Nat
  deriving DecidableEq

/-- ProfileSample (sampling_profiler.py lines 108-114): a stack trace
(innermost frame first, as built by walking `f_back`) plus the timestamp at
which it was sampled, in milliseconds as a float (modelled as ℚ). -/
structure ProfileSample where
  stack_trace : List FrameKey
  timestamp_ms : ℚ
  deriving DecidableEq

/-- A node of the call tree built by Profile._call_tree
(sampling_profiler.py lines 267-310): a dict with keys "total_time",
"id" and "children", the children being a mapping from frame tuples
to child nodes (modelled as an association list). -/
inductive CallTree where
  | node (total_time : ℚ) (id : Nat)
      (children : List (FrameKey × CallTree)) : CallTree

/-- The "total_time" field of a call tree node. -/
def CallTree.total_time : CallTree → ℚ
  | .node t _ _ => t

/-- The "id" field of a call tree node. -/
def CallTree.id : CallTree → Nat
  | .node _ i _ => i

/-- The "children" field of a call tree node. -/
def CallTree.children : CallTree → List (FrameKey × CallTree)
  | .node _ _ ch => ch

/-- Lookup of `frame_to_add_to["children"][frame]` in the children mapping. -/
def lookupChild : List (FrameKey × CallTree) → FrameKey → Option CallTree
  | [], _ => none
  | (k, c) :: rest, f => if k = f then some c else lookupChild rest f

/-- Replacement of the child at an existing key of the children mapping
(the dict entry is mutated in place in Python). -/
def setChild : List (FrameKey × CallTree) → FrameKey → CallTree →
    List (FrameKey × CallTree)
  | [], _, _ => []
  | (k, c) :: rest, f, c' =>
    if k = f then (k, c') :: rest else (k, c) :: setChild rest f c'

/-- The body of the per-sample loop of Profile._call_tree
(sampling_profiler.py lines 284-308): walk `reversed(sample.stack_trace)`
(outermost frame first) descending into the child keyed by each frame,
creating missing children with `total_time` 0 and the next fresh id, then
add the time delta `dt` to the node reached and record its id.

Arguments: the node to add to, the remaining frames (outermost first), the
time delta, the next fresh id.  Returns the updated node, the next fresh id
after any creations, and the id of the node the sample bottomed out in. -/
def addSample : CallTree → List FrameKey → ℚ → Nat → CallTree × Nat × Nat
  | .node total_time id children, [], dt, next_id =>
    (.node (total_time + dt) id children, next_id, id)
  | .node total_time id children, f :: rest, dt, next_id =>
    match lookupChild children f with
    | some child =>
      let r := addSample child rest dt next_id
      (.node total_time id (setChild children f r.1), r.2.1, r.2.2)
    | none =>
      let r := addSample (.node 0 next_id []) rest dt (next_id + 1)
      (.node total_time id (children ++ [(f, r.1)]), r.2.1, r.2.2)

/-- The sample loop of Profile._call_tree (sampling_profiler.py lines
282-308), threading the tree, the next fresh id, the timestamp of the
previous sample (`last_sample_ms`, None before the first sample) and the
accumulated `sample_ids`.  The time delta of a sample is its timestamp
minus the previous timestamp; the first sample gets the made-up delta of
one nominal sampling interval, `1000.0 / SAMPLES_PER_SECOND`. -/
def callTreeLoop : List ProfileSample → CallTree → Nat → Option ℚ →
    List Nat → CallTree × List Nat
  | [], t, _, _, sample_ids => (t, sample_ids)
  | sample :: rest, t, next_id, last_sample_ms, sample_ids =>
    let dt : ℚ :=
      match last_sample_ms with
      | none => 1000 / (SAMPLES_PER_SECOND : ℚ)
      | some last => sample.timestamp_ms - last
    let r := addSample t sample.stack_trace.reverse dt next_id
    callTreeLoop rest r.1 r.2.1 (some sample.timestamp_ms)
      (sample_ids ++ [r.2.2])

/-- Profile._call_tree (sampling_profiler.py lines 267-310): the root starts
with `total_time` 0 and id 1, fresh ids start at 2, and the loop visits the
samples in order.  Returns the root and the list of per-sample node ids. -/
def call_tree (samples : List ProfileSample) : CallTree × List Nat :=
  callTreeLoop samples (.node 0 1 []) 2 none []

mutual

/-- Sum of `total_time` over every node of a call tree. -/
def sumTotal : CallTree → ℚ
  | .node total_time _ children => total_time + sumChildren children

/-- Sum of `sumTotal` over the children of a node. -/
def sumChildren : List (FrameKey × CallTree) → ℚ
  | [] => 0
  | (_, c) :: rest => sumTotal c + sumChildren rest

end

end SamplingProfiler

/-! ## profiler.py: RequestStats memcache chunk store -/

/-- A Python byte string, one list entry per byte. -/
abbrev Bytes := List Nat

namespace RequestStats

/-- `_MEMCACHE_CHUNKSIZE = memcache.MAX_VALUE_SIZE - 1024` (profiler.py
line 39).  `memcache.MAX_VALUE_SIZE` is the App Engine memcache value-size
limit of 10^6 bytes. -/
def _MEMCACHE_CHUNKSIZE : Nat := 1000000 - 1024

/-- RequestStats.memcache_key (profiler.py lines 379-383).  Python formats
the string `"__gae_mini_profiler_request_%s_%s" % (request_id, index)`;
`%s` of the index is its decimal representation `Nat.repr index`. -/
def memcache_key (request_id : String) (index : Nat) : Option String :=
  if request_id = "" then none
  else some ("__gae_mini_profiler_request_" ++ request_id ++ "_"
             ++ Nat.repr index)

/-- The number of iterations of the loop
`for i in xrange(0, len(compressed_pickled), _MEMCACHE_CHUNKSIZE)` in
RequestStats.store: one per started chunk of the payload. -/
def numChunks (len : Nat) : Nat :=
  (len + _MEMCACHE_CHUNKSIZE - 1) / _MEMCACHE_CHUNKSIZE

/-- RequestStats.store (profiler.py lines 343-353): the `setmap` of chunk
writes for a compressed payload.

    for i in xrange(0, len(compressed_pickled), _MEMCACHE_CHUNKSIZE):
        key = RequestStats.memcache_key(self.request_id, i)
        setmap[key] = compressed_pickled[i:i + _MEMCACHE_CHUNKSIZE]

The offsets `0, C, 2C, ...` below `len` are written `k * C` for
`k < numChunks len`, and the slice `compressed_pickled[i:i + C]` is
`(compressed_pickled.drop i).take C`.  (`memcache.set_multi(setmap)` then
issues the writes; the round-trip claim assumes they all succeed, which the
round-trip theorem takes as a hypothesis on the backing store.) -/
def store (request_id : String) (compressed_pickled : Bytes) :
    List (Option String × Bytes) :=
  (List.range (numChunks compressed_pickled.length)).map (fun k =>
    (memcache_key request_id (k * _MEMCACHE_CHUNKSIZE),
     (compressed_pickled.drop (k * _MEMCACHE_CHUNKSIZE)).take
       _MEMCACHE_CHUNKSIZE))

/-- The result of RequestStats.get: Python returns an unpickled object or
None, and its `while True` read loop has no bound, so the embedding also has
an explicit diverged outcome for insufficient fuel. -/
inductive GetResult where
  | diverge : GetResult
  | notFound : GetResult
  | found : Bytes → GetResult
  deriving DecidableEq

/-- The `while True` chunk-reading loop of RequestStats.get (profiler.py
lines 360-370), with explicit fuel for the unbounded loop:

    chunks = []
    i = 0
    while True:
        key = RequestStats.memcache_key(request_id, i)
        chunk = memcache.get(key) or ''
        chunks.append(chunk)
        if len(chunk) < _MEMCACHE_CHUNKSIZE:
            break
        i += _MEMCACHE_CHUNKSIZE

`mem` is the backing memcache (`none` = key absent, which `or ''` turns into
the empty chunk).  Returns the collected chunk list, or `none` if the loop
does not finish within `fuel` iterations. -/
def getChunks (mem : Option String → Option Bytes) (request_id : String) :
    Nat → Nat → Option (List Bytes)
  | _, 0 => none
  | i, fuel + 1 =>
    let chunk := (mem (memcache_key request_id i)).getD []
    if chunk.length < _MEMCACHE_CHUNKSIZE then some [chunk]
    else
      match getChunks mem request_id (i + _MEMCACHE_CHUNKSIZE) fuel with
      | none => none
      | some rest => some (chunk :: rest)

/-- RequestStats.get (profiler.py lines 355-377).  `decompress` stands for
`zlib.decompress` (and the subsequent `pickle.loads` is the identity on the
byte payload in this embedding, which identifies a RequestStats object with
its pickled bytes).  An empty or absent request id returns None before any
memcache read; after the read loop, an empty concatenation returns None. -/
def get (mem : Option String → Option Bytes) (decompress : Bytes → Bytes)
    (request_id : String) (fuel : Nat) : GetResult :=
  if request_id = "" then .notFound
  else
    match getChunks mem request_id 0 fuel with
    | none => .diverge
    | some chunks =>
      let compressed_pickled := chunks.flatten
      if compressed_pickled = [] then .notFound
      else .found (decompress compressed_pickled)

end RequestStats

/-! ## linebyline_profiler.py: _process_line_stats -/

namespace LineByLine

/-- One entry of the per-line table produced by `_process_line_stats`
(linebyline_profiler.py lines 129-137).  The derived display strings
(`perc_time_s`, `time_ms_s`), which only format these numbers, are not
modelled. -/
structure LineTiming where
  lineno : Nat
  line : String
  perc_time : ℚ
  time_ms : ℚ
  numhits : Int
  deriving DecidableEq

/-- The per-function result dict built by `_process_line_stats`
(linebyline_profiler.py lines 114-121); the display string
`total_time_ms_s` is not modelled. -/
structure FunctionStats where
  filename : String
  start_lineno : Nat
  func_name : String
  total_time_ms : ℚ
  timings : List LineTiming
  deriving DecidableEq

/-- The `line_to_timing` defaultdict (linebyline_profiler.py lines
101-104): built by assigning `line_to_timing[lineno] = (nhits, time)` over
the timing entries in order (a later entry for the same line overwrites an
earlier one), with default value `(-1, 0)` for absent lines. -/
def line_to_timing (timings : List (Nat × Int × Nat)) (lineno : Nat) :
    Int × Nat :=
  timings.foldl (fun acc e => if e.1 = lineno then e.2 else acc) (-1, 0)

/-- The `padded_timings` list (linebyline_profiler.py lines 106-110): one
entry `(lineno, nhits, time)` for every `lineno in range(start_lineno,
end_lineno)`, where `end_lineno = start_lineno + len(sublines)`;
`block_len` is `len(sublines)`, the length of the lexical block that
`inspect.getblock` extracts from the source file. -/
def padded_timings (start_lineno block_len : Nat)
    (timings : List (Nat × Int × Nat)) : List (Nat × Int × Nat) :=
  (List.range' start_lineno block_len).map
    (fun lineno => (lineno, line_to_timing timings lineno))

/-- `result["total_time_ms"]` (linebyline_profiler.py lines 118-119):
`sum([time for _, _, time in padded_timings]) * multiplier`, with
`multiplier = line_stats.unit / 1e-3` converting profiler units to
milliseconds. -/
def total_time_ms (padded : List (Nat × Int × Nat)) (multiplier : ℚ) : ℚ :=
  ((padded.map (fun e => (e.2.2 : ℚ))).sum) * multiplier

/-- The body of the per-key loop of `_process_line_stats`
(linebyline_profiler.py lines 91-139) for one profiled function.

Inputs taken as parameters because they come from outside the function:
`block_len` is the length of the lexical block found by
`inspect.getblock`, `all_lines` the source lines from
`linecache.getlines(filename)`, `multiplier` the unit conversion
`line_stats.unit / 1e-3`, and `timings` the list of `(lineno, nhits,
time)` entries for this function key.

The per-line loop (lines 125-137) computes
`perc_time = (100.0 * time_ms) / result["total_time_ms"]`; in Python this
raises ZeroDivisionError when the total is 0.0 and the loop body runs at
least once, which is modelled by returning `none` in exactly that case.
The guard `if not timings: continue` (line 92) that skips functions with
an empty timings mapping happens in the enclosing loop; the claims about
this function all assume a non-empty timings mapping. -/
def _process_line_stats_entry (filename func_name : String)
    (start_lineno block_len : Nat) (all_lines : List String)
    (multiplier : ℚ) (timings : List (Nat × Int × Nat)) :
    Option FunctionStats :=
  let padded := padded_timings start_lineno block_len timings
  let total := total_time_ms padded multiplier
  if padded ≠ [] ∧ total = 0 then none
  else some
    { filename := filename
      start_lineno := start_lineno
      func_name := func_name
      total_time_ms := total
      timings := padded.map (fun e =>
        { lineno := e.1
          line := all_lines.getD (e.1 - 1) ""
          perc_time := 100 * ((e.2.2 : ℚ) * multiplier) / total
          time_ms := (e.2.2 : ℚ) * multiplier
          numhits := e.2.1 }) }

end LineByLine

/-! ## Helper lemmas -/

namespace SamplingProfiler

/-- Replacing the child at a key present in a children mapping changes the
children sum by the difference of the two subtree sums. -/
theorem sumChildren_setChild (f : FrameKey) (c c' : CallTree) :
    ∀ ch : List (FrameKey × CallTree), lookupChild ch f = some c →
      sumChildren (setChild ch f c') =
        sumChildren ch + (sumTotal c' - sumTotal c) := by
  intro ch
  induction ch with
  | nil => intro h; simp [lookupChild] at h
  | cons p rest ih =>
    intro h
    obtain ⟨k, child⟩ := p
    by_cases hk : k = f
    · rw [lookupChild, if_pos hk] at h
      injection h with h
      subst h
      simp [setChild, if_pos hk, sumChildren]
      ring
    · rw [lookupChild, if_neg hk] at h
      simp only [setChild, if_neg hk, sumChildren, ih h]
      ring

/-- Appending a fresh child adds its subtree sum to the children sum. -/
theorem sumChildren_append (f : FrameKey) (c : CallTree) :
    ∀ ch : List (FrameKey × CallTree),
      sumChildren (ch ++ [(f, c)]) = sumChildren ch + sumTotal c := by
  intro ch
  induction ch with
  | nil => simp [sumChildren]
  | cons p rest ih =>
    obtain ⟨k, child⟩ := p
    simp only [List.cons_append, sumChildren, List.append_eq, ih]
    ring

/-- Adding one sample to the call tree increases the total over all nodes
by exactly the time delta of that sample: the delta lands in exactly one
node, and descending only restructures the children mappings. -/
theorem sumTotal_addSample (dt : ℚ) :
    ∀ (frames : List FrameKey) (t : CallTree) (next_id : Nat),
      sumTotal (addSample t frames dt next_id).1 = sumTotal t + dt := by
  intro frames
  induction frames with
  | nil =>
    intro t next_id
    obtain ⟨total_time, id, ch⟩ := t
    simp [addSample, sumTotal]
    ring
  | cons f rest ih =>
    intro t next_id
    obtain ⟨total_time, id, ch⟩ := t
    cases hc : lookupChild ch f with
    | some child =>
      simp only [addSample, hc, sumTotal,
        sumChildren_setChild f child _ ch hc, ih]
      ring
    | none =>
      simp only [addSample, hc, sumTotal, sumChildren_append, ih,
        sumChildren]
      ring

/-- Over the tail of the sample loop (previous timestamp known), the tree
total grows by exactly the span from the previous timestamp to the last
timestamp: the per-sample deltas telescope. -/
theorem sumTotal_callTreeLoop (samples : List ProfileSample) :
    ∀ (t : CallTree) (next_id : Nat) (last : ℚ) (ids : List Nat)
      (s_last : ProfileSample), samples.getLast? = some s_last →
      sumTotal (callTreeLoop samples t next_id (some last) ids).1 =
        sumTotal t + (s_last.timestamp_ms - last) := by
  induction samples with
  | nil => intro t next_id last ids s_last h; simp at h
  | cons s rest ih =>
    intro t next_id last ids s_last h
    simp only [callTreeLoop]
    cases hrest : rest with
    | nil =>
      subst hrest
      simp only [List.getLast?_singleton, Option.some.injEq] at h
      subst h
      simp [callTreeLoop, sumTotal_addSample]
    | cons r rs =>
      have hlast : rest.getLast? = some s_last := by
        rw [← h, hrest]
        exact (List.getLast?_cons_cons ..).symm
      rw [← hrest] at *
      rw [ih _ _ _ _ _ hlast, sumTotal_addSample]
      ring

/-- C3.  Call-tree time conservation: for a non-empty run, the sum of
total_time over every node of the tree built by Profile._call_tree equals
the span from the first to the last sample timestamp plus one nominal
sampling interval (1000 / SAMPLES_PER_SECOND milliseconds, the made-up
delta assigned to the first sample); this is the run-duration approximation
that the root of the rendered profile accounts for.  Per the definition of
`callTreeLoop`, the delta attributed by each later sample is its timestamp
minus the previous timestamp. -/
theorem call_tree_time_conservation (samples : List ProfileSample)
    (s_first s_last : ProfileSample)
    (hfirst : samples.head? = some s_first)
    (hlast : samples.getLast? = some s_last) :
    sumTotal (call_tree samples).1 =
      1000 / (SAMPLES_PER_SECOND : ℚ) +
        (s_last.timestamp_ms - s_first.timestamp_ms) := by
  obtain ⟨s, rest, rfl⟩ : ∃ s rest, samples = s :: rest := by
    cases samples with
    | nil => simp at hfirst
    | cons s rest => exact ⟨s, rest, rfl⟩
  simp only [List.head?_cons, Option.some.injEq] at hfirst
  subst hfirst
  simp only [call_tree, callTreeLoop]
  cases hrest : rest with
  | nil =>
    subst hrest
    simp only [List.getLast?_singleton, Option.some.injEq] at hlast
    subst hlast
    simp [callTreeLoop, sumTotal_addSample, sumTotal, sumChildren]
  | cons r rs =>
    have hl : rest.getLast? = some s_last := by
      rw [← hlast, hrest]
      exact (List.getLast?_cons_cons ..).symm
    rw [← hrest] at *
    rw [sumTotal_callTreeLoop _ _ _ _ _ _ hl, sumTotal_addSample]
    simp only [sumTotal, sumChildren]
    ring

/-- Witness for `call_tree_time_conservation`: two samples, 6 ms apart,
through a one-frame stack; the tree total is one nominal interval
(1000 / 250 = 4 ms) plus the 6 ms span. -/
theorem call_tree_time_conservation_witness :
    sumTotal (call_tree
      [⟨[⟨("app.py", "handler"), 10⟩], 0⟩,
       ⟨[⟨("app.py", "handler"), 10⟩], 6⟩]).1 =
      1000 / (SAMPLES_PER_SECOND : ℚ) + (6 - 0) :=
  call_tree_time_conservation
    [⟨[⟨("app.py", "handler"), 10⟩], 0⟩,
     ⟨[⟨("app.py", "handler"), 10⟩], 6⟩]
    ⟨[⟨("app.py", "handler"), 10⟩], 0⟩
    ⟨[⟨("app.py", "handler"), 10⟩], 6⟩ rfl rfl

/-- Replacing the child at a present key makes lookup of that key return
the replacement. -/
theorem lookupChild_setChild (f : FrameKey) (c' : CallTree) :
    ∀ (ch : List (FrameKey × CallTree)) (c : CallTree),
      lookupChild ch f = some c →
      lookupChild (setChild ch f c') f = some c' := by
  intro ch
  induction ch with
  | nil => intro c h; simp [lookupChild] at h
  | cons p rest ih =>
    intro c h
    obtain ⟨k, kc⟩ := p
    by_cases hk : k = f
    · simp [setChild, if_pos hk, lookupChild]
    · rw [lookupChild, if_neg hk] at h
      simp [setChild, if_neg hk, lookupChild, ih _ h]

/-- Appending a binding for an absent key makes lookup of that key return
the appended child. -/
theorem lookupChild_append (f : FrameKey) (c : CallTree) :
    ∀ ch : List (FrameKey × CallTree), lookupChild ch f = none →
      lookupChild (ch ++ [(f, c)]) f = some c := by
  intro ch
  induction ch with
  | nil => intro h; simp [lookupChild]
  | cons p rest ih =>
    intro h
    obtain ⟨k, kc⟩ := p
    rw [lookupChild] at h
    by_cases hk : k = f
    · rw [if_pos hk] at h
      exact absurd h (by simp)
    · rw [if_neg hk] at h
      simp only [List.cons_append, lookupChild, if_neg hk]
      exact ih h

/-- A second descent along the same frame path finds the child created or
updated by the first descent at every level, and therefore bottoms out in
the very same node (same id), whatever the deltas and fresh-id counters. -/
theorem addSample_leaf_repeat :
    ∀ (frames : List FrameKey) (t : CallTree) (dt dt' : ℚ)
      (n n' : Nat),
      (addSample (addSample t frames dt n).1 frames dt' n').2.2 =
        (addSample t frames dt n).2.2 := by
  intro frames
  induction frames with
  | nil =>
    intro t dt dt' n n'
    obtain ⟨total_time, id, ch⟩ := t
    simp [addSample]
  | cons f rest ih =>
    intro t dt dt' n n'
    obtain ⟨total_time, id, ch⟩ := t
    cases hc : lookupChild ch f with
    | some child =>
      simp only [addSample, hc, lookupChild_setChild f _ ch child hc, ih]
    | none =>
      simp only [addSample, hc, lookupChild_append f _ ch hc, ih]

/-- Counterexample to C2 as stated.  Two samples whose one-frame stacks run
the same function "handler" of the same file "app.py" under the same
(empty) parent path, but at different executing lines 10 and 11: the claim
says both descend into the same child node of the root with accumulated
time.  Instead the code keys children by the full (code, f_lineno) frame
tuple, so the run produces per-sample node ids 2 and 3 (different nodes),
and the root has two children, keyed by line 10 and line 11, each holding
only its own delta (4 ms and 6 ms) rather than an accumulated total. -/
theorem call_tree_children_keyed_by_line_counterexample :
    (call_tree
      [⟨[⟨("app.py", "handler"), 10⟩], 0⟩,
       ⟨[⟨("app.py", "handler"), 11⟩], 6⟩]).2 = [2, 3]
    ∧ (call_tree
      [⟨[⟨("app.py", "handler"), 10⟩], 0⟩,
       ⟨[⟨("app.py", "handler"), 11⟩], 6⟩]).1.children.map Prod.fst =
      [⟨("app.py", "handler"), 10⟩, ⟨("app.py", "handler"), 11⟩]
    ∧ (call_tree
      [⟨[⟨("app.py", "handler"), 10⟩], 0⟩,
       ⟨[⟨("app.py", "handler"), 11⟩], 6⟩]).1.children.map
        (fun p => p.2.total_time) = [4, 6] := by
  norm_num [call_tree, callTreeLoop, addSample, lookupChild,
    CallTree.children, CallTree.total_time, SAMPLES_PER_SECOND]

/-- C2 amended.  Children of a call-tree node are keyed by the full frame
identity (code object together with its executing line), not by (file,
function) alone: two samples whose stacks agree frame-for-frame — same
function, same file AND same line at every level under the same parent
path — descend into the same child node at every level and bottom out in
the very same node, as witnessed by their equal recorded sample ids. -/
theorem call_tree_same_stack_same_node (s : List FrameKey) (t0 t1 : ℚ) :
    ∃ i, (call_tree [⟨s, t0⟩, ⟨s, t1⟩]).2 = [i, i] := by
  refine ⟨(addSample (CallTree.node 0 1 []) s.reverse
    (1000 / (SAMPLES_PER_SECOND : ℚ)) 2).2.2, ?_⟩
  simp [call_tree, callTreeLoop, addSample_leaf_repeat]

end SamplingProfiler

namespace RequestStats

/-- Helper for the round-trip proof: starting the read loop of
RequestStats.get at chunk offset `k * C`, with the backing store holding
every chunk written by `store` (and nothing at the first offset past the
payload when the payload length is an exact multiple of the chunk size),
the loop terminates and the chunks it collects flatten to the suffix of the
payload from that offset on. -/
theorem getChunks_of_store (mem : Option String → Option Bytes)
    (request_id : String) (bytes : Bytes)
    (hmem : ∀ k < numChunks bytes.length,
      mem (memcache_key request_id (k * _MEMCACHE_CHUNKSIZE)) =
        some ((bytes.drop (k * _MEMCACHE_CHUNKSIZE)).take _MEMCACHE_CHUNKSIZE))
    (hfresh : bytes.length % _MEMCACHE_CHUNKSIZE = 0 →
      mem (memcache_key request_id
        (numChunks bytes.length * _MEMCACHE_CHUNKSIZE)) = none) :
    ∀ (d k fuel : Nat), numChunks bytes.length = k + d →
      (d = 0 → bytes.length % _MEMCACHE_CHUNKSIZE = 0) →
      d + 1 ≤ fuel →
      ∃ chunks,
        getChunks mem request_id (k * _MEMCACHE_CHUNKSIZE) fuel =
          some chunks ∧
        chunks.flatten = bytes.drop (k * _MEMCACHE_CHUNKSIZE) := by
  have hCval : _MEMCACHE_CHUNKSIZE = 998976 := by
    norm_num [_MEMCACHE_CHUNKSIZE]
  intro d
  induction d with
  | zero =>
    intro k fuel hk hdvd hfuel
    obtain ⟨fuel, rfl⟩ : ∃ f, fuel = f + 1 := ⟨fuel - 1, by omega⟩
    have hmod := hdvd rfl
    have hk' := hk
    simp only [numChunks, hCval, Nat.add_zero] at hk'
    rw [hCval] at hmod
    have hdrop : bytes.drop (k * _MEMCACHE_CHUNKSIZE) = [] := by
      apply List.drop_eq_nil_of_le
      rw [hCval]
      omega
    have hkey : mem (memcache_key request_id
        (k * _MEMCACHE_CHUNKSIZE)) = none := by
      have := hfresh (hdvd rfl)
      rwa [hk, Nat.add_zero] at this
    refine ⟨[[]], ?_, by simpa using hdrop.symm⟩
    rw [hCval] at hkey
    simp [getChunks, hkey, hCval]
  | succ d ih =>
    intro k fuel hk hdvd hfuel
    obtain ⟨fuel, rfl⟩ : ∃ f, fuel = f + 1 := ⟨fuel - 1, by omega⟩
    have hklt : k < numChunks bytes.length := by omega
    have hklt' := hklt
    simp only [numChunks, hCval] at hklt'
    have hlen : k * 998976 < bytes.length := by omega
    have hchunk := hmem k hklt
    by_cases hlast : bytes.length - k * _MEMCACHE_CHUNKSIZE
        < _MEMCACHE_CHUNKSIZE
    · -- the chunk at offset k * C is the final, short chunk
      rw [hCval] at hlast
      refine ⟨[(bytes.drop (k * _MEMCACHE_CHUNKSIZE)).take
        _MEMCACHE_CHUNKSIZE], ?_, ?_⟩
      · simp only [getChunks, hchunk, Option.getD_some]
        rw [if_pos]
        simp only [List.length_take, List.length_drop, hCval]
        omega
      · simp only [List.flatten_cons, List.flatten_nil, List.append_nil]
        apply List.take_of_length_le
        simp only [List.length_drop, hCval]
        omega
    · -- the chunk at offset k * C is full; the loop continues at (k+1) * C
      rw [hCval] at hlast
      have hnext : ∃ chunks,
          getChunks mem request_id
            ((k + 1) * _MEMCACHE_CHUNKSIZE) fuel = some chunks ∧
          chunks.flatten = bytes.drop ((k + 1) * _MEMCACHE_CHUNKSIZE) := by
        apply ih (k + 1) fuel (by omega) ?_ (by omega)
        intro hd0
        have hk' := hk
        simp only [numChunks, hCval, hd0] at hk'
        rw [hCval]
        omega
      obtain ⟨chunks, hg, hflat⟩ := hnext
      refine ⟨(bytes.drop (k * _MEMCACHE_CHUNKSIZE)).take
        _MEMCACHE_CHUNKSIZE :: chunks, ?_, ?_⟩
      · simp only [getChunks, hchunk, Option.getD_some]
        rw [if_neg]
        · have harith : k * _MEMCACHE_CHUNKSIZE + _MEMCACHE_CHUNKSIZE
              = (k + 1) * _MEMCACHE_CHUNKSIZE := by ring
          rw [harith, hg]
        · simp only [List.length_take, List.length_drop, hCval]
          omega
      · simp only [List.flatten_cons, hflat]
        have harith : (k + 1) * _MEMCACHE_CHUNKSIZE
            = k * _MEMCACHE_CHUNKSIZE + _MEMCACHE_CHUNKSIZE := by ring
        rw [harith]
        exact List.drop_take_append_drop bytes _ _

end RequestStats

namespace LineByLine

/-- A line none of the timing entries mention keeps the defaultdict
default `(-1, 0)`. -/
theorem line_to_timing_of_absent (timings : List (Nat × Int × Nat))
    (lineno : Nat) (h : ∀ e ∈ timings, e.1 ≠ lineno) :
    line_to_timing timings lineno = (-1, 0) := by
  unfold line_to_timing
  induction timings with
  | nil => rfl
  | cons e rest ih =>
    rw [List.foldl_cons, if_neg (h e (List.mem_cons_self e rest))]
    exact ih (fun e' he' => h e' (List.mem_cons_of_mem e he'))

end LineByLine


/-- C1.  Cache round-trip: for every byte payload P (including payloads
whose compressed form has length an exact multiple of the chunk size) and
every non-empty request id, if `store` compresses P, splits the compressed
bytes into `_MEMCACHE_CHUNKSIZE`-sized chunks and every chunk write reaches
the backing store (`hwrites`), then `get` reads the chunks back,
concatenates and decompresses them, and returns exactly P.

Side conditions reflecting the real system: `hzlib` states that
`zlib.decompress` inverts `zlib.compress`; `hnonempty` that zlib output is
never the empty string; `hfresh` that the backing store holds no stale
entry at the first chunk offset past the written payload (relevant exactly
when the compressed length is a multiple of the chunk size, where the read
loop probes one extra key); `hfuel` gives the unbounded `while True` read
loop enough fuel to visit every written chunk plus the final probe. -/
theorem store_fetch_roundtrip
    (compress decompress : Bytes → Bytes) (P : Bytes) (request_id : String)
    (mem : Option String → Option Bytes) (fuel : Nat)
    (hid : request_id ≠ "")
    (hzlib : decompress (compress P) = P)
    (hnonempty : compress P ≠ [])
    (hwrites : ∀ p ∈ RequestStats.store request_id (compress P),
      mem p.1 = some p.2)
    (hfresh : (compress P).length % RequestStats._MEMCACHE_CHUNKSIZE = 0 →
      mem (RequestStats.memcache_key request_id
        (RequestStats.numChunks (compress P).length *
          RequestStats._MEMCACHE_CHUNKSIZE)) = none)
    (hfuel : RequestStats.numChunks (compress P).length + 1 ≤ fuel) :
    RequestStats.get mem decompress request_id fuel =
      RequestStats.GetResult.found P := by
  have hmem : ∀ k < RequestStats.numChunks (compress P).length,
      mem (RequestStats.memcache_key request_id
        (k * RequestStats._MEMCACHE_CHUNKSIZE)) =
      some (((compress P).drop (k * RequestStats._MEMCACHE_CHUNKSIZE)).take
        RequestStats._MEMCACHE_CHUNKSIZE) := by
    intro k hk
    exact hwrites _ (List.mem_map.mpr ⟨k, List.mem_range.mpr hk, rfl⟩)
  obtain ⟨chunks, hg, hflat⟩ :=
    RequestStats.getChunks_of_store mem request_id (compress P) hmem hfresh
      (RequestStats.numChunks (compress P).length) 0 fuel (by omega)
      (fun hd0 => by
        exfalso
        have hlen : 0 < (compress P).length := List.length_pos.mpr hnonempty
        have := hd0
        simp only [RequestStats.numChunks, RequestStats._MEMCACHE_CHUNKSIZE]
          at this
        omega)
      (by omega)
  rw [Nat.zero_mul] at hg
  rw [Nat.zero_mul, List.drop_zero] at hflat
  simp only [RequestStats.get, if_neg hid, hg, hflat, hzlib,
    if_neg hnonempty]

/-- Witness for `store_fetch_roundtrip`: payload [1, 2, 3] under request id
"x", with the identity as the compression pair, written to a backing store
holding exactly the chunks `store` produced. -/
theorem store_fetch_roundtrip_witness :
    RequestStats.get
      (fun k => (RequestStats.store "x" [1, 2, 3]).lookup k)
      (fun b => b) "x" 2 = RequestStats.GetResult.found [1, 2, 3] := by
  apply store_fetch_roundtrip (fun b => b) (fun b => b) [1, 2, 3] "x"
      (fun k => (RequestStats.store "x" [1, 2, 3]).lookup k) 2
  · decide
  · rfl
  · decide
  · decide
  · decide
  · decide

/-- C6.  Not-found semantics of fetch: an empty request id returns not-found
without consulting the backing store at all (the result is the same for
every backing store); a non-empty id whose chunk 0 is missing or empty
returns not-found rather than raising. -/
theorem get_notFound_semantics
    (mem mem' : Option String → Option Bytes) (decompress : Bytes → Bytes)
    (request_id : String) (fuel : Nat) :
    (RequestStats.get mem decompress "" fuel =
       RequestStats.GetResult.notFound)
    ∧ (RequestStats.get mem decompress "" fuel =
       RequestStats.get mem' decompress "" fuel)
    ∧ (request_id ≠ "" → 1 ≤ fuel →
       (mem (RequestStats.memcache_key request_id 0) = none ∨
        mem (RequestStats.memcache_key request_id 0) = some []) →
       RequestStats.get mem decompress request_id fuel =
         RequestStats.GetResult.notFound) := by
  refine ⟨by simp [RequestStats.get], by simp [RequestStats.get], ?_⟩
  intro hid hfuel hchunk0
  obtain ⟨fuel, rfl⟩ : ∃ f, fuel = f + 1 := ⟨fuel - 1, by omega⟩
  have hCval : RequestStats._MEMCACHE_CHUNKSIZE = 998976 := by
    norm_num [RequestStats._MEMCACHE_CHUNKSIZE]
  rcases hchunk0 with h0 | h0 <;>
    simp [RequestStats.get, if_neg hid, RequestStats.getChunks, h0, hCval]

/-- Witness for `get_notFound_semantics`: the empty request id, and the
request id "x" against an empty backing store, both resolve to not-found. -/
theorem get_notFound_semantics_witness :
    RequestStats.get (fun _ => none) (fun b => b) "" 1 =
      RequestStats.GetResult.notFound
    ∧ RequestStats.get (fun _ => none) (fun b => b) "x" 1 =
      RequestStats.GetResult.notFound :=
  ⟨(get_notFound_semantics (fun _ => none) (fun _ => none)
      (fun b => b) "x" 1).1,
   (get_notFound_semantics (fun _ => none) (fun _ => none)
      (fun b => b) "x" 1).2.2 (by decide) (by decide) (Or.inl rfl)⟩

/-- C4.  Behaviour of Mode.is_rpc_enabled on each of the ten enumerated
modes.  The source list (profiler.py lines 118-124) names only RPC_ONLY and
the three RPC_AND_CPU_{INSTRUMENTED,SAMPLING,MEMORY_SAMPLING} modes, so
`is_rpc_enabled` returns false for RPC_AND_CPU_LINEBYLINE — contradicting
the claim, the very name of the constant, and its source comment "RPCs and
line-by-line profiling" (profiler.py line 92): in that mode the appstats
RPC profiler is never enabled (profiler.py line 483). -/
theorem is_rpc_enabled_omits_rpc_linebyline :
    Mode.is_rpc_enabled Mode.RPC_ONLY = true
    ∧ Mode.is_rpc_enabled Mode.RPC_AND_CPU_INSTRUMENTED = true
    ∧ Mode.is_rpc_enabled Mode.RPC_AND_CPU_SAMPLING = true
    ∧ Mode.is_rpc_enabled Mode.RPC_AND_CPU_MEMORY_SAMPLING = true
    ∧ Mode.is_rpc_enabled Mode.RPC_AND_CPU_LINEBYLINE = false
    ∧ Mode.is_rpc_enabled Mode.SIMPLE = false
    ∧ Mode.is_rpc_enabled Mode.CPU_INSTRUMENTED = false
    ∧ Mode.is_rpc_enabled Mode.CPU_SAMPLING = false
    ∧ Mode.is_rpc_enabled Mode.CPU_MEMORY_SAMPLING = false
    ∧ Mode.is_rpc_enabled Mode.CPU_LINEBYLINE = false := by
  decide

/-- C7.  Mode default: with no header and no cookie, `Mode.get_mode`
returns RPC_ONLY; a value from either source that is not one of the ten
enumerated mode strings also defaults to RPC_ONLY; a recognized value is
returned unchanged (header first, cookie only when the header is absent). -/
theorem get_mode_default (environ : String → Option String)
    (cookie : Option String) :
    (environ "HTTP_G_M_P_MODE" = none → cookie = none →
      Mode.get_mode environ cookie = Mode.RPC_ONLY)
    ∧ (∀ v, environ "HTTP_G_M_P_MODE" = some v →
        v ∉ Mode.enumeratedModes →
        Mode.get_mode environ cookie = Mode.RPC_ONLY)
    ∧ (∀ v, environ "HTTP_G_M_P_MODE" = none → cookie = some v →
        v ∉ Mode.enumeratedModes →
        Mode.get_mode environ cookie = Mode.RPC_ONLY)
    ∧ (∀ v, environ "HTTP_G_M_P_MODE" = some v →
        v ∈ Mode.enumeratedModes →
        Mode.get_mode environ cookie = v)
    ∧ (∀ v, environ "HTTP_G_M_P_MODE" = none → cookie = some v →
        v ∈ Mode.enumeratedModes →
        Mode.get_mode environ cookie = v) := by
  refine ⟨?_, ?_, ?_, ?_, ?_⟩
  · intro h1 h2
    simp [Mode.get_mode, h1, h2]
  · intro v h1 h2
    simp [Mode.get_mode, h1, h2]
  · intro v h1 h2 h3
    simp [Mode.get_mode, h1, h2, h3]
  · intro v h1 h2
    simp [Mode.get_mode, h1, h2]
  · intro v h1 h2 h3
    simp [Mode.get_mode, h1, h2, h3]

/-- Witness for `get_mode_default`: no header and no cookie gives "rpc";
a recognized header value "sampling" is returned unchanged. -/
theorem get_mode_default_witness :
    Mode.get_mode (fun _ => none) none = Mode.RPC_ONLY
    ∧ Mode.get_mode (fun _ => some "sampling") none = "sampling" :=
  ⟨(get_mode_default (fun _ => none) none).1 rfl rfl,
   (get_mode_default (fun _ => some "sampling") none).2.2.2.1
     "sampling" rfl (by decide)⟩

/-- Counterexample to the cadence formula in C9 as stated.  For the
configuration `memory_sample_rate = 7`, the claim says N should be
`max(1, round(SAMPLES_PER_SECOND / memory_sample_rate))` =
`max(1, round(250/7))` = `max(1, 36)` = 36; the code computes Python 2
integer floor division before rounding, giving
`max(1, int(round(250 // 7)))` = `max(1, 35)` = 35. -/
theorem memory_sample_every_floor_counterexample :
    (SamplingProfiler.memory_sample_every 7 : ℤ) ≠
      max 1 (round ((SamplingProfiler.SAMPLES_PER_SECOND : ℚ) / 7))
    ∧ SamplingProfiler.memory_sample_every 7 = 35
    ∧ round ((SamplingProfiler.SAMPLES_PER_SECOND : ℚ) / 7) = 36 := by
  refine ⟨?_, ?_, ?_⟩
  · norm_num [SamplingProfiler.memory_sample_every,
      SamplingProfiler.SAMPLES_PER_SECOND, round_eq]
  · norm_num [SamplingProfiler.memory_sample_every,
      SamplingProfiler.SAMPLES_PER_SECOND]
  · norm_num [SamplingProfiler.SAMPLES_PER_SECOND, round_eq]

/-- C9 amended.  Memory-sampling cadence: when a positive integer
`memory_sample_rate` is configured, N is `max(1, 250 / rate)` with Python 2
*floor* division (this agrees with the round formula of the claim whenever
the fractional part of 250/rate is below one half, e.g. for the rate 25
actually configured, but not in general); a sample records a memory
measurement if and only if `force_memory` is set or the sample number is a
multiple of N; a call with `force_memory` (as issued for the final sample
taken after stop is signalled, sampling_profiler.py line 105) always
records; and with memory sampling disabled (rate 0) no call ever records. -/
theorem memory_sampling_cadence (rate : Nat) (hrate : 0 < rate) :
    SamplingProfiler.memory_sample_every rate =
      max 1 (SamplingProfiler.SAMPLES_PER_SECOND / rate)
    ∧ (∀ (ms : List (ℚ × ℚ)) (ts m : ℚ) (n : Nat) (force : Bool),
        SamplingProfiler.take_sample_memory
            (SamplingProfiler.memory_sample_every rate) ms ts m n force =
          ms ++ [(ts, m)] ↔
        (force = true ∨ n % SamplingProfiler.memory_sample_every rate = 0))
    ∧ (∀ (ms : List (ℚ × ℚ)) (ts m : ℚ) (n : Nat),
        SamplingProfiler.take_sample_memory
            (SamplingProfiler.memory_sample_every rate) ms ts m n true =
          ms ++ [(ts, m)])
    ∧ (∀ (ms : List (ℚ × ℚ)) (ts m : ℚ) (n : Nat) (force : Bool),
        SamplingProfiler.take_sample_memory
            (SamplingProfiler.memory_sample_every 0) ms ts m n force =
          ms) := by
  have h0 : ¬ rate = 0 := by omega
  have hne : SamplingProfiler.memory_sample_every rate ≠ 0 := by
    rw [SamplingProfiler.memory_sample_every, if_neg h0]
    omega
  refine ⟨?_, ?_, ?_, ?_⟩
  · rw [SamplingProfiler.memory_sample_every, if_neg h0]
  · intro ms ts m n force
    constructor
    · intro h
      by_cases hc : force = true ∨
          n % SamplingProfiler.memory_sample_every rate = 0
      · exact hc
      · rw [SamplingProfiler.take_sample_memory,
          if_neg (fun hand => hc hand.2)] at h
        exact absurd h (by simp)
    · intro h
      rw [SamplingProfiler.take_sample_memory, if_pos ⟨hne, h⟩]
  · intro ms ts m n
    rw [SamplingProfiler.take_sample_memory, if_pos ⟨hne, Or.inl rfl⟩]
  · intro ms ts m n force
    simp [SamplingProfiler.take_sample_memory,
      SamplingProfiler.memory_sample_every]

/-- Witness for `memory_sampling_cadence` at the rate 25 actually
configured by profiler.py (N = 10): sample number 10 records without
force, and any sample records under force. -/
theorem memory_sampling_cadence_witness :
    SamplingProfiler.memory_sample_every 25 =
      max 1 (SamplingProfiler.SAMPLES_PER_SECOND / 25)
    ∧ SamplingProfiler.take_sample_memory
        (SamplingProfiler.memory_sample_every 25) [] 3 9 10 false =
      [] ++ [(3, 9)]
    ∧ SamplingProfiler.take_sample_memory
        (SamplingProfiler.memory_sample_every 25) [] 3 9 7 true =
      [] ++ [(3, 9)] :=
  ⟨(memory_sampling_cadence 25 (by decide)).1,
   ((memory_sampling_cadence 25 (by decide)).2.1 [] 3 9 10 false).mpr
     (Or.inr (by decide)),
   (memory_sampling_cadence 25 (by decide)).2.2.1 [] 3 9 7⟩

/-- C5.  Line-table contiguity: for a profiled function with a non-empty
timings mapping whose table is produced (no zero-total exception), the
table has exactly one entry for every line number in the contiguous range
[start_lineno, start_lineno + block length), in increasing order with no
gaps — so a function spanning a 5-line block yields exactly 5 entries —
and a line absent from the input mapping carries the defaults: the no-hits
sentinel -1 and zero time. -/
theorem line_table_contiguous (filename func_name : String)
    (start_lineno block_len : Nat) (all_lines : List String)
    (multiplier : ℚ) (timings : List (Nat × Int × Nat))
    (htm : timings ≠ []) (r : LineByLine.FunctionStats)
    (hr : LineByLine._process_line_stats_entry filename func_name
      start_lineno block_len all_lines multiplier timings = some r) :
    r.timings.map LineByLine.LineTiming.lineno =
      List.range' start_lineno block_len
    ∧ r.timings.length = block_len
    ∧ ∀ lt ∈ r.timings,
        (∀ e ∈ timings, e.1 ≠ lt.lineno) →
        lt.numhits = -1 ∧ lt.time_ms = 0 := by
  rw [LineByLine._process_line_stats_entry] at hr
  split at hr
  · exact absurd hr (by simp)
  · rw [Option.some.injEq] at hr
    subst hr
    refine ⟨?_, ?_, ?_⟩
    · simp only [LineByLine.padded_timings, List.map_map]
      exact List.map_id'' (fun l => rfl) _
    · simp [LineByLine.padded_timings]
    · intro lt hlt habsent
      obtain ⟨e, he, rfl⟩ := List.mem_map.mp hlt
      obtain ⟨l, hl, rfl⟩ := List.mem_map.mp he
      have hdef := LineByLine.line_to_timing_of_absent timings l
        (fun e' he' => habsent e' he')
      simp only [hdef]
      norm_num

/-- Witness for `line_table_contiguous`: a function spanning lines
[10, 12) with a single timing entry on line 10 yields the table
[line 10, line 11], with line 11 carrying the defaults. -/
theorem line_table_contiguous_witness :
    ∃ r, LineByLine._process_line_stats_entry "f.py" "g" 10 2 [] 1
        [(10, 3, 7)] = some r
      ∧ r.timings.map LineByLine.LineTiming.lineno = List.range' 10 2
      ∧ r.timings.length = 2 := by
  have hrange : List.range' 10 2 = [10, 11] := rfl
  have hr : LineByLine._process_line_stats_entry "f.py" "g" 10 2 [] 1
      [(10, 3, 7)] = some
        { filename := "f.py"
          start_lineno := 10
          func_name := "g"
          total_time_ms := 7
          timings :=
            [{ lineno := 10, line := "", perc_time := 100, time_ms := 7,
               numhits := 3 },
             { lineno := 11, line := "", perc_time := 0, time_ms := 0,
               numhits := -1 }] } := by
    norm_num [LineByLine._process_line_stats_entry,
      LineByLine.padded_timings, LineByLine.total_time_ms,
      LineByLine.line_to_timing, hrange]
  refine ⟨_, hr, ?_, ?_⟩
  · exact (line_table_contiguous "f.py" "g" 10 2 [] 1 [(10, 3, 7)]
      (by decide) _ hr).1
  · exact (line_table_contiguous "f.py" "g" 10 2 [] 1 [(10, 3, 7)]
      (by decide) _ hr).2.1

/-- C8.  Percentage conservation: for a profiled function with a non-empty
timings mapping and strictly positive total time, the table is produced,
the reported percentage of each line is 100 times the time of that line
divided by the total time of the function (the sum over all its lines), and
the percentages over all lines sum to exactly 100 in exact arithmetic. -/
theorem line_percentages_conservation (filename func_name : String)
    (start_lineno block_len : Nat) (all_lines : List String)
    (multiplier : ℚ) (timings : List (Nat × Int × Nat))
    (htm : timings ≠ [])
    (hpos : 0 < LineByLine.total_time_ms
      (LineByLine.padded_timings start_lineno block_len timings)
      multiplier) :
    ∃ r, LineByLine._process_line_stats_entry filename func_name
        start_lineno block_len all_lines multiplier timings = some r
      ∧ r.total_time_ms = LineByLine.total_time_ms
          (LineByLine.padded_timings start_lineno block_len timings)
          multiplier
      ∧ (∀ lt ∈ r.timings,
          lt.perc_time = 100 * lt.time_ms / r.total_time_ms)
      ∧ (r.timings.map LineByLine.LineTiming.perc_time).sum = 100 := by
  have htot : LineByLine.total_time_ms
      (LineByLine.padded_timings start_lineno block_len timings)
      multiplier ≠ 0 := ne_of_gt hpos
  rw [LineByLine._process_line_stats_entry]
  rw [if_neg (fun hand => htot hand.2)]
  refine ⟨_, rfl, rfl, ?_, ?_⟩
  · intro lt hlt
    obtain ⟨e, he, rfl⟩ := List.mem_map.mp hlt
    rfl
  · rw [List.map_map]
    have hfun : (LineByLine.LineTiming.perc_time ∘ fun e =>
        ({ lineno := e.1
           line := all_lines.getD (e.1 - 1) ""
           perc_time := 100 * ((e.2.2 : ℚ) * multiplier) /
             LineByLine.total_time_ms
               (LineByLine.padded_timings start_lineno block_len timings)
               multiplier
           time_ms := (e.2.2 : ℚ) * multiplier
           numhits := e.2.1 } : LineByLine.LineTiming)) =
        fun e : Nat × Int × Nat => (e.2.2 : ℚ) *
          (100 * multiplier / LineByLine.total_time_ms
            (LineByLine.padded_timings start_lineno block_len timings)
            multiplier) := by
      funext e
      simp only [Function.comp]
      ring
    rw [hfun, List.sum_map_mul_right]
    have hS : ((LineByLine.padded_timings start_lineno block_len
        timings).map (fun e => (e.2.2 : ℚ))).sum * multiplier =
        LineByLine.total_time_ms
          (LineByLine.padded_timings start_lineno block_len timings)
          multiplier := rfl
    rw [← hS] at htot ⊢
    obtain ⟨hS0, hm0⟩ := mul_ne_zero_iff.mp htot
    field_simp
    ring

/-- Witness for `line_percentages_conservation`: same input as the
contiguity witness; the line percentages are 100 and 0, summing to 100. -/
theorem line_percentages_conservation_witness :
    ∃ r, LineByLine._process_line_stats_entry "f.py" "g" 10 2 [] 1
        [(10, 3, 7)] = some r
      ∧ r.total_time_ms = LineByLine.total_time_ms
          (LineByLine.padded_timings 10 2 [(10, 3, 7)]) 1
      ∧ (∀ lt ∈ r.timings,
          lt.perc_time = 100 * lt.time_ms / r.total_time_ms)
      ∧ (r.timings.map LineByLine.LineTiming.perc_time).sum = 100 :=
  line_percentages_conservation "f.py" "g" 10 2 [] 1 [(10, 3, 7)]
    (by decide)
    (by norm_num [LineByLine.total_time_ms, LineByLine.padded_timings,
      LineByLine.line_to_timing, show List.range' 10 2 = [10, 11] from rfl])

/-- C10.  Unguarded zero-total division: a profiled function whose timings
mapping is non-empty (here one entry, on line 10, with 5 hits) but whose
accumulated times are all zero drives `result["total_time_ms"]` to 0.0, so
the per-line loop computes `(100.0 * time_ms) / 0.0` and Python raises
ZeroDivisionError instead of producing a table (modelled as `none`); the
division is only safe under the unchecked precondition of nonzero total
time. -/
theorem line_zero_total_division_raises :
    LineByLine._process_line_stats_entry "f.py" "g" 10 2 [] 1
      [(10, 5, 0)] = none := by
  norm_num [LineByLine._process_line_stats_entry,
    LineByLine.padded_timings, LineByLine.total_time_ms,
    LineByLine.line_to_timing, show List.range' 10 2 = [10, 11] from rfl]
  intro h
  exact absurd h (by simp)
